import Mathlib

/-!
Shallow embedding of the ACE (AZTEC Cryptography Engine) contract,
`packages/protocol/contracts/ACE/ACE.sol`, and proofs about its
registry / dispatcher / ledger operations.

Conventions of the embedding:
* Ethereum addresses, `bytes32` words and the packed `uint24` proof
  identifier are all modelled as `Nat` (with explicit `% 2^w` masking where
  the source masks).
* The two `[0x100][0x100][0x10000]` storage arrays `validators` and
  `disabledValidators` are modelled as total maps from the flat storage-slot
  offset `epoch * 0x10000 + category * 0x100 + id`; for a `uint24` proof
  identifier this offset is the identifier itself, exactly the addressing
  trick documented in ACE.sol lines 204-225.
* The ledger `mapping(bytes32 => bool) validatedProofs` is keyed in the
  source by `keccak256(abi.encode(proofHash, _proof, msg.sender))`; since
  `abi.encode` of that fixed-width triple is injective and `keccak256` is
  collision-resistant, the key is modelled as the triple
  `(proofHash, proof, msgSender)` itself.
* The keccak256 hash of a variable-length sub-output (line 129) is an
  explicit parameter `kec : List Nat → Nat` of `validateProof`.
* The external validator contract reached by `staticcall` (lines 88-123) is
  an explicit parameter: `staticcall` runs in a static context, so the
  callee cannot mutate state and is faithfully a pure function from
  `(address, proofData, sender, commonReferenceString)` to either a list of
  sub-outputs (its returndata decoded by `NoteUtils.getLength`/`get`) or a
  rejection (the `case 0 { revert }` branch).
* A reverting operation returns `.error e` and, per EVM transaction
  semantics, leaves storage untouched; `revertOnError` / `revertOnErrorSt`
  realise that rollback.
-/

set_option maxHeartbeats 1000000
set_option linter.unnecessarySeqFocus false

namespace ACE

/-- Error kinds of the contract, one per distinct `require` / `revert`
message in ACE.sol (plus the overflow guard of `SafeMath8.add`). -/
inductive ACEError
  | unauthorized
  | unknownValidator
  | disabledValidator
  | validationRejected
  | emptyProofHash
  | notPreviouslyValidated
  | epochExceeded
  | alreadyRegistered
  | uint8Overflow
  deriving DecidableEq, Repr

/-- The persistent storage of ACE.sol (state variables, lines 44-56),
together with the `Ownable` owner address. -/
structure ACEState where
  owner : Nat
  latestEpoch : Nat
  validators : Nat → Nat
  disabledValidators : Nat → Bool
  validatedProofs : Nat × Nat × Nat → Bool
  commonReferenceString : Fin 6 → Nat

/-- Epoch component of a packed proof identifier: its third-lowest byte.
Modelled from the spec: `ProofUtils.getProofComponents` is not under src/;
the spec ("a 24-bit value decomposed into three 8-bit fields
(epoch, category, id)") together with ACE.sol's own slot arithmetic
(lines 216-220: epoch scales by 0x10000, category by 0x100, id by 1) and the
category extraction `(_proof >> 8) & 0xff` on line 126 fix the layout. -/
def proofEpoch (proof : Nat) : Nat := proof / 0x10000 % 0x100

/-- Category component of a packed proof identifier: its second byte,
`(_proof >> 8) & 0xff` (ACE.sol line 126). -/
def proofCategory (proof : Nat) : Nat := proof / 0x100 % 0x100

/-- Id component of a packed proof identifier: its low byte. -/
def proofId (proof : Nat) : Nat := proof % 0x100

/-- `ProofUtils.getProofComponents`: decompose a `uint24` into
`(epoch, category, id)`. -/
def getProofComponents (proof : Nat) : Nat × Nat × Nat :=
  (proofEpoch proof, proofCategory proof, proofId proof)

/-- Storage-slot offset of `validators[epoch][category][id]` (equally of
`disabledValidators[...]`): the array type `address[0x100][0x100][0x10000]`
lays element `(epoch, category, id)` at offset
`epoch * 0x10000 + category * 0x100 + id` from the array's base slot
(ACE.sol lines 208-224). -/
def slotOffset (epoch category pid : Nat) : Nat :=
  epoch * 0x10000 + category * 0x100 + pid

/-- Slot offset of the components of a packed proof identifier; for
`proof < 2^24` this equals `proof` itself. -/
def proofSlot (proof : Nat) : Nat :=
  slotOffset (proofEpoch proof) (proofCategory proof) (proofId proof)

/-- Modelled from the spec: the `BALANCED` value of the `ProofCategory`
enumeration lives in `IAZTEC.sol`, which is not under src/; the spec only
distinguishes BALANCED from non-BALANCED categories, and the enumeration's
first non-null member has the `uint8` value 1. All theorems below depend
only on whether a category equals `BALANCED`, never on the number itself. -/
def BALANCED : Nat := 1

/-- Behaviour of an external validator contract, as observable through the
`staticcall` in `validateProof`: a pure function of the callee address, the
proof data, the `_sender` argument and the common reference string,
returning `some` list of sub-outputs (decoded returndata) or `none` for the
reverting branch (`case 0 { mstore(0x00, 400) revert(0x00, 0x20) }`). -/
abbrev ValidatorImpl :=
  Nat → List Nat → Nat → (Fin 6 → Nat) → Option (List (List Nat))

/-- `getValidatorAddress` (ACE.sol lines 282-300): load
`disabledValidators[proof]` and `validators[proof]` by flat slot offset,
then require, in this order, that the validator address exists and that it
is not disabled. -/
def getValidatorAddress (s : ACEState) (proof : Nat) : Except ACEError Nat :=
  let isValidatorDisabled := s.disabledValidators proof
  let validatorAddress := s.validators proof
  if validatorAddress = 0 then .error .unknownValidator
  else if isValidatorDisabled then .error .disabledValidator
  else .ok validatorAddress

/-- The recording loop of `validateProof` (ACE.sol lines 127-132): for each
sub-output of the returned blob, in order, set
`validatedProofs[keccak256(abi.encode(keccak256(subOutput), proof, msg.sender))]`
to `true`. -/
def writeFingerprints (ledger : Nat × Nat × Nat → Bool)
    (kec : List Nat → Nat) (proof msgSender : Nat) :
    List (List Nat) → (Nat × Nat × Nat → Bool)
  | [] => ledger
  | subOutput :: rest =>
      writeFingerprints
        (fun k => if k = (kec subOutput, proof, msgSender) then true
                  else ledger k)
        kec proof msgSender rest

/-- `validateProof` (ACE.sol lines 79-135): resolve the validator for
`proof` (propagating `getValidatorAddress`'s errors), `staticcall` it with
`(proofData, _sender, commonReferenceString)`, revert if the call fails,
and - only if the proof's category is BALANCED - record every sub-output's
fingerprint in the ledger keyed by `(fingerprint, proof, msg.sender)`;
finally return the output blob. -/
def validateProof (vi : ValidatorImpl) (kec : List Nat → Nat) (s : ACEState)
    (proof msgSender senderArg : Nat) (proofData : List Nat) :
    Except ACEError (ACEState × List (List Nat)) :=
  match getValidatorAddress s proof with
  | .error e => .error e
  | .ok validatorAddress =>
    match vi validatorAddress proofData senderArg s.commonReferenceString with
    | none => .error .validationRejected
    | some proofOutputs =>
      if proofCategory proof = BALANCED then
        let newLedger :=
          writeFingerprints s.validatedProofs kec proof msgSender proofOutputs
        .ok ({ s with validatedProofs := newLedger }, proofOutputs)
      else
        .ok (s, proofOutputs)

/-- The loop body of `clearProofByHashes` (ACE.sol lines 151-157), threading
the mutated state: each listed hash must be non-zero and its ledger record,
in the state as mutated so far, must be `true`; it is then set to `false`. -/
def clearLoop (proof msgSender : Nat) (s : ACEState) :
    List Nat → Except ACEError ACEState
  | [] => .ok s
  | proofHash :: rest =>
      if proofHash = 0 then .error .emptyProofHash
      else if s.validatedProofs (proofHash, proof, msgSender) = true then
        let newLedger := fun k =>
          if k = (proofHash, proof, msgSender) then false
          else s.validatedProofs k
        clearLoop proof msgSender { s with validatedProofs := newLedger } rest
      else .error .notPreviouslyValidated

/-- `clearProofByHashes` (ACE.sol lines 149-158). -/
def clearProofByHashes (s : ACEState) (msgSender proof : Nat)
    (proofHashes : List Nat) : Except ACEError ACEState :=
  clearLoop proof msgSender s proofHashes

/-- `validateProofByHash` (ACE.sol lines 191-243): read
`disabledValidators[proof]` and the ledger record keyed by
`(proofHash, proof, sender)`, then require the validator not disabled
(reverting regardless of the ledger if it is) and return the record. -/
def validateProofByHash (s : ACEState) (proof proofHash sender : Nat) :
    Except ACEError Bool :=
  let isValidatorDisabled := s.disabledValidators proof
  let isProofValid := s.validatedProofs (proofHash, proof, sender)
  if isValidatorDisabled then .error .disabledValidator
  else .ok isProofValid

/-- `setProof` (ACE.sol lines 251-261): owner-only; the identifier's epoch
may not exceed `latestEpoch`; an existing (non-zero) binding may not be
modified; on success store the validator address. The handle itself is not
checked against zero. -/
def setProof (s : ACEState) (msgSender proof validatorAddress : Nat) :
    Except ACEError ACEState :=
  if msgSender = s.owner then
    if proofEpoch proof ≤ s.latestEpoch then
      if s.validators (proofSlot proof) = 0 then
        let newValidators := fun k =>
          if k = proofSlot proof then validatorAddress else s.validators k
        .ok { s with validators := newValidators }
      else .error .alreadyRegistered
    else .error .epochExceeded
  else .error .unauthorized

/-- `invalidateProof` (ACE.sol lines 175-180): owner-only; requires an
existing binding; sets the disabled flag (and never clears it). -/
def invalidateProof (s : ACEState) (msgSender proof : Nat) :
    Except ACEError ACEState :=
  if msgSender = s.owner then
    if s.validators (proofSlot proof) = 0 then .error .unknownValidator
    else
      let newDisabled := fun k =>
        if k = proofSlot proof then true else s.disabledValidators k
      .ok { s with disabledValidators := newDisabled }
  else .error .unauthorized

/-- Modelled from the spec: `SafeMath8.add`, used for
`latestEpoch.add(1)` on ACE.sol line 268, lives in `SafeMath8.sol` which is
not under src/. `latestEpoch` is declared `uint8` in src/ and the spec's
invariant 4 ("LatestEpoch only increases") forbids wrap-around, so the
library's overflow guard (`require(c >= a, "uint8 overflow!")` after a
wrapping `uint8` addition) is modelled as a checked addition that fails
exactly when the sum does not fit in a `uint8`. -/
def safeMath8Add (a b : Nat) : Except ACEError Nat :=
  if a + b < 0x100 then .ok (a + b) else .error .uint8Overflow

/-- `incrementLatestEpoch` (ACE.sol lines 266-270): owner-only;
`latestEpoch := latestEpoch.add(1)` with SafeMath8's overflow check. -/
def incrementLatestEpoch (s : ACEState) (msgSender : Nat) :
    Except ACEError ACEState :=
  if msgSender = s.owner then
    match safeMath8Add s.latestEpoch 1 with
    | .error e => .error e
    | .ok newEpoch => .ok { s with latestEpoch := newEpoch }
  else .error .unauthorized

/-- `setCommonReferenceString` (ACE.sol lines 165-169): owner-only wholesale
replacement of the six reference-string words. -/
def setCommonReferenceString (s : ACEState) (msgSender : Nat)
    (crs : Fin 6 → Nat) : Except ACEError ACEState :=
  if msgSender = s.owner then
    .ok { s with commonReferenceString := crs }
  else .error .unauthorized

/-- Rollback semantics of an EVM transaction for operations returning a
value besides the state: a revert (`.error`) leaves storage untouched. -/
def revertOnError {α : Type} (s : ACEState) :
    Except ACEError (ACEState × α) → ACEState
  | .ok (s', _) => s'
  | .error _ => s

/-- Rollback semantics of an EVM transaction for state-only operations. -/
def revertOnErrorSt (s : ACEState) : Except ACEError ACEState → ACEState
  | .ok s' => s'
  | .error _ => s

/-- One invocation of any state-mutating entry point of the contract
(the `view` functions `validateProofByHash`, `getValidatorAddress` and
`getCommonReferenceString` read storage but cannot write it). -/
inductive ACEOp
  | validateOp (vi : ValidatorImpl) (kec : List Nat → Nat)
      (proof msgSender senderArg : Nat) (proofData : List Nat)
  | clearOp (msgSender proof : Nat) (proofHashes : List Nat)
  | setProofOp (msgSender proof validatorAddress : Nat)
  | invalidateOp (msgSender proof : Nat)
  | incrementEpochOp (msgSender : Nat)
  | setCrsOp (msgSender : Nat) (crs : Fin 6 → Nat)

/-- Apply one entry-point invocation to the state, with revert-rollback. -/
def applyOp (s : ACEState) : ACEOp → ACEState
  | .validateOp vi kec proof ms sa pd =>
      revertOnError s (validateProof vi kec s proof ms sa pd)
  | .clearOp ms proof phs => revertOnErrorSt s (clearProofByHashes s ms proof phs)
  | .setProofOp ms proof va => revertOnErrorSt s (setProof s ms proof va)
  | .invalidateOp ms proof => revertOnErrorSt s (invalidateProof s ms proof)
  | .incrementEpochOp ms => revertOnErrorSt s (incrementLatestEpoch s ms)
  | .setCrsOp ms crs => revertOnErrorSt s (setCommonReferenceString s ms crs)

/-! ### Basic lemmas about the embedding -/

theorem proofSlot_eq (proof : Nat) (hp : proof < 0x1000000) :
    proofSlot proof = proof := by
  unfold proofSlot slotOffset proofEpoch proofCategory proofId
  omega

theorem getValidatorAddress_ok_iff (s : ACEState) (proof a : Nat) :
    getValidatorAddress s proof = .ok a ↔
      s.validators proof = a ∧ a ≠ 0 ∧ s.disabledValidators proof = false := by
  unfold getValidatorAddress
  dsimp only
  split_ifs with h1 h2 <;>
    simp_all <;> rintro rfl <;> simp_all

theorem getValidatorAddress_unknown (s : ACEState) (proof : Nat)
    (h : s.validators proof = 0) :
    getValidatorAddress s proof = .error .unknownValidator := by
  unfold getValidatorAddress
  simp [h]

theorem getValidatorAddress_disabled (s : ACEState) (proof : Nat)
    (hv : s.validators proof ≠ 0) (hd : s.disabledValidators proof = true) :
    getValidatorAddress s proof = .error .disabledValidator := by
  unfold getValidatorAddress
  simp [hv, hd]

theorem writeFingerprints_true_iff (kec : List Nat → Nat) (proof ms : Nat)
    (outs : List (List Nat)) :
    ∀ (ledger : Nat × Nat × Nat → Bool) (k : Nat × Nat × Nat),
      writeFingerprints ledger kec proof ms outs k = true ↔
        (∃ o ∈ outs, k = (kec o, proof, ms)) ∨ ledger k = true := by
  induction outs with
  | nil => intro ledger k; simp [writeFingerprints]
  | cons o rest ih =>
      intro ledger k
      rw [writeFingerprints, ih]
      by_cases hk : k = (kec o, proof, ms) <;> simp [hk]

theorem validateProof_ok (vi : ValidatorImpl) (kec : List Nat → Nat)
    (s s' : ACEState) (proof ms sa : Nat) (pd : List Nat)
    (out : List (List Nat))
    (h : validateProof vi kec s proof ms sa pd = .ok (s', out)) :
    s.validators proof ≠ 0 ∧ s.disabledValidators proof = false
  ∧ vi (s.validators proof) pd sa s.commonReferenceString = some out
  ∧ s' = (if proofCategory proof = BALANCED then
            { s with validatedProofs :=
                writeFingerprints s.validatedProofs kec proof ms out }
          else s) := by
  unfold validateProof at h
  split at h
  next e heq => exact absurd h (by simp)
  next a heq =>
    obtain ⟨hva, hanz, hdis⟩ := (getValidatorAddress_ok_iff s proof a).mp heq
    subst hva
    split at h
    next hvi => exact absurd h (by simp)
    next outs hvi =>
      split at h <;>
        · simp only [Except.ok.injEq, Prod.mk.injEq] at h
          obtain ⟨hs, houts⟩ := h
          subst houts
          simp_all

theorem validateProof_unknown (vi : ValidatorImpl) (kec : List Nat → Nat)
    (s : ACEState) (proof ms sa : Nat) (pd : List Nat)
    (h : s.validators proof = 0) :
    validateProof vi kec s proof ms sa pd = .error .unknownValidator := by
  unfold validateProof
  rw [getValidatorAddress_unknown s proof h]

theorem validateProof_disabled (vi : ValidatorImpl) (kec : List Nat → Nat)
    (s : ACEState) (proof ms sa : Nat) (pd : List Nat)
    (hv : s.validators proof ≠ 0) (hd : s.disabledValidators proof = true) :
    validateProof vi kec s proof ms sa pd = .error .disabledValidator := by
  unfold validateProof
  rw [getValidatorAddress_disabled s proof hv hd]

theorem setProof_ok (s s' : ACEState) (ms proof va : Nat)
    (h : setProof s ms proof va = .ok s') :
    ms = s.owner ∧ proofEpoch proof ≤ s.latestEpoch
  ∧ s.validators (proofSlot proof) = 0
  ∧ s'.validators =
      (fun k => if k = proofSlot proof then va else s.validators k)
  ∧ s'.disabledValidators = s.disabledValidators
  ∧ s'.latestEpoch = s.latestEpoch
  ∧ s'.owner = s.owner
  ∧ s'.validatedProofs = s.validatedProofs
  ∧ s'.commonReferenceString = s.commonReferenceString := by
  unfold setProof at h
  split_ifs at h with h1 h2 h3 <;> injection h with h
  subst h
  exact ⟨h1, h2, h3, rfl, rfl, rfl, rfl, rfl, rfl⟩

theorem invalidateProof_ok (s s' : ACEState) (ms proof : Nat)
    (h : invalidateProof s ms proof = .ok s') :
    ms = s.owner ∧ s.validators (proofSlot proof) ≠ 0
  ∧ s'.disabledValidators =
      (fun k => if k = proofSlot proof then true else s.disabledValidators k)
  ∧ s'.validators = s.validators
  ∧ s'.latestEpoch = s.latestEpoch
  ∧ s'.owner = s.owner
  ∧ s'.validatedProofs = s.validatedProofs
  ∧ s'.commonReferenceString = s.commonReferenceString := by
  unfold invalidateProof at h
  split_ifs at h with h1 h2 <;> injection h with h
  subst h
  exact ⟨h1, h2, rfl, rfl, rfl, rfl, rfl, rfl⟩

theorem incrementLatestEpoch_ok (s s' : ACEState) (ms : Nat)
    (h : incrementLatestEpoch s ms = .ok s') :
    ms = s.owner ∧ s.latestEpoch + 1 < 0x100
  ∧ s' = { s with latestEpoch := s.latestEpoch + 1 } := by
  unfold incrementLatestEpoch safeMath8Add at h
  split_ifs at h with h1 h2 <;> injection h with h
  subst h
  exact ⟨h1, h2, rfl⟩

theorem setCommonReferenceString_ok (s s' : ACEState) (ms : Nat)
    (crs : Fin 6 → Nat) (h : setCommonReferenceString s ms crs = .ok s') :
    ms = s.owner ∧ s' = { s with commonReferenceString := crs } := by
  unfold setCommonReferenceString at h
  split_ifs at h with h1 <;> injection h with h
  subst h
  exact ⟨h1, rfl⟩

theorem clearLoop_frame (proof z : Nat) (phs : List Nat) :
    ∀ (s s' : ACEState), clearLoop proof z s phs = .ok s' →
      s'.owner = s.owner ∧ s'.latestEpoch = s.latestEpoch
    ∧ s'.validators = s.validators
    ∧ s'.disabledValidators = s.disabledValidators
    ∧ s'.commonReferenceString = s.commonReferenceString := by
  induction phs with
  | nil =>
      intro s s' h
      unfold clearLoop at h
      simp only [Except.ok.injEq] at h
      subst h
      simp
  | cons fp rest ih =>
      intro s s' h
      unfold clearLoop at h
      split_ifs at h with h1 h2 <;> try injection h
      exact ih { s with validatedProofs := fun k => if k = (fp, proof, z) then false else s.validatedProofs k } s' h

theorem validateProof_ok_frame (vi : ValidatorImpl) (kec : List Nat → Nat)
    (s s' : ACEState) (proof ms sa : Nat) (pd : List Nat)
    (out : List (List Nat))
    (h : validateProof vi kec s proof ms sa pd = .ok (s', out)) :
    s'.owner = s.owner ∧ s'.latestEpoch = s.latestEpoch
  ∧ s'.validators = s.validators
  ∧ s'.disabledValidators = s.disabledValidators
  ∧ s'.commonReferenceString = s.commonReferenceString := by
  have hs' := (validateProof_ok vi kec s s' proof ms sa pd out h).2.2.2
  rw [hs']
  by_cases hb : proofCategory proof = BALANCED <;> simp [hb]

theorem clearLoop_ok_spec (proof z : Nat) (phs : List Nat) :
    ∀ (s s' : ACEState), phs.Nodup → clearLoop proof z s phs = .ok s' →
      (∀ fp ∈ phs, fp ≠ 0 ∧ s.validatedProofs (fp, proof, z) = true)
    ∧ (∀ k : Nat × Nat × Nat,
        s'.validatedProofs k =
          if k.1 ∈ phs ∧ k.2.1 = proof ∧ k.2.2 = z then false
          else s.validatedProofs k) := by
  induction phs with
  | nil =>
      intro s s' _ h
      unfold clearLoop at h
      injection h with h
      subst h
      simp
  | cons fp rest ih =>
      intro s s' hnd h
      unfold clearLoop at h
      split_ifs at h with h1 h2 <;> try injection h
      obtain ⟨hfpnotin, hndrest⟩ := List.nodup_cons.mp hnd
      obtain ⟨hcond, hchar⟩ := ih { s with validatedProofs := fun k => if k = (fp, proof, z) then false else s.validatedProofs k } s' hndrest h
      constructor
      · intro fp' hfp'
        rcases List.mem_cons.mp hfp' with hfp' | hfp'
        · exact hfp' ▸ ⟨h1, h2⟩
        · have hne : fp' ≠ fp := fun e => hfpnotin (e ▸ hfp')
          have := hcond fp' hfp'
          refine ⟨this.1, ?_⟩
          simpa [Prod.ext_iff, hne] using this.2
      · intro k
        obtain ⟨k1, k2, k3⟩ := k
        rw [hchar (k1, k2, k3)]
        by_cases hk2 : k2 = proof <;> by_cases hk3 : k3 = z <;>
          by_cases hkf : k1 = fp <;> by_cases hkr : k1 ∈ rest <;>
          simp_all [Prod.ext_iff]

theorem clearLoop_ok_of (proof z : Nat) (phs : List Nat) :
    ∀ (s : ACEState), phs.Nodup →
      (∀ fp ∈ phs, fp ≠ 0 ∧ s.validatedProofs (fp, proof, z) = true) →
      ∃ s', clearLoop proof z s phs = .ok s' := by
  induction phs with
  | nil => exact fun s _ _ => ⟨s, rfl⟩
  | cons fp rest ih =>
      intro s hnd hcond
      obtain ⟨h1, h2⟩ := hcond fp (by simp)
      unfold clearLoop
      rw [if_neg h1, if_pos h2]
      dsimp only
      apply ih
      · exact (List.nodup_cons.mp hnd).2
      · intro fp' hfp'
        have hthis := hcond fp' (List.mem_cons_of_mem _ hfp')
        refine ⟨hthis.1, ?_⟩
        have hne : fp' ≠ fp := fun e => (List.nodup_cons.mp hnd).1 (e ▸ hfp')
        simpa [Prod.ext_iff, hne] using hthis.2

theorem applyOp_validators_nonzero (s : ACEState) (op : ACEOp) (k : Nat)
    (h : s.validators k ≠ 0) :
    (applyOp s op).validators k = s.validators k := by
  cases op with
  | validateOp vi kec proof ms sa pd =>
      simp only [applyOp]
      cases hv : validateProof vi kec s proof ms sa pd with
      | error e => rfl
      | ok p =>
          obtain ⟨s', out⟩ := p
          have hval :=
            (validateProof_ok_frame vi kec s s' proof ms sa pd out hv).2.2.1
          show s'.validators k = s.validators k
          rw [hval]
  | clearOp ms proof phs =>
      simp only [applyOp, clearProofByHashes]
      cases hv : clearLoop proof ms s phs with
      | error e => rfl
      | ok s' =>
          have hval := (clearLoop_frame proof ms phs s s' hv).2.2.1
          show s'.validators k = s.validators k
          rw [hval]
  | setProofOp ms proof va =>
      simp only [applyOp]
      cases hv : setProof s ms proof va with
      | error e => rfl
      | ok s' =>
          obtain ⟨-, -, hzero, hval, -⟩ := setProof_ok s s' ms proof va hv
          have hk : s'.validators k =
              if k = proofSlot proof then va else s.validators k :=
            congrFun hval k
          have hne : k ≠ proofSlot proof := fun e => h (by rw [e]; exact hzero)
          show s'.validators k = s.validators k
          rw [hk, if_neg hne]
  | invalidateOp ms proof =>
      simp only [applyOp]
      cases hv : invalidateProof s ms proof with
      | error e => rfl
      | ok s' =>
          obtain ⟨-, -, -, hval, -⟩ := invalidateProof_ok s s' ms proof hv
          show s'.validators k = s.validators k
          rw [hval]
  | incrementEpochOp ms =>
      simp only [applyOp]
      cases hv : incrementLatestEpoch s ms with
      | error e => rfl
      | ok s' =>
          obtain ⟨-, -, hs'⟩ := incrementLatestEpoch_ok s s' ms hv
          show s'.validators k = s.validators k
          rw [hs']
  | setCrsOp ms crs =>
      simp only [applyOp]
      cases hv : setCommonReferenceString s ms crs with
      | error e => rfl
      | ok s' =>
          obtain ⟨-, hs'⟩ := setCommonReferenceString_ok s s' ms crs hv
          show s'.validators k = s.validators k
          rw [hs']

theorem applyOp_disabled_true (s : ACEState) (op : ACEOp) (k : Nat)
    (h : s.disabledValidators k = true) :
    (applyOp s op).disabledValidators k = true := by
  cases op with
  | validateOp vi kec proof ms sa pd =>
      simp only [applyOp]
      cases hv : validateProof vi kec s proof ms sa pd with
      | error e => exact h
      | ok p =>
          obtain ⟨s', out⟩ := p
          have hval :=
            (validateProof_ok_frame vi kec s s' proof ms sa pd out hv).2.2.2.1
          show s'.disabledValidators k = true
          rw [hval]; exact h
  | clearOp ms proof phs =>
      simp only [applyOp, clearProofByHashes]
      cases hv : clearLoop proof ms s phs with
      | error e => exact h
      | ok s' =>
          have hval := (clearLoop_frame proof ms phs s s' hv).2.2.2.1
          show s'.disabledValidators k = true
          rw [hval]; exact h
  | setProofOp ms proof va =>
      simp only [applyOp]
      cases hv : setProof s ms proof va with
      | error e => exact h
      | ok s' =>
          obtain ⟨-, -, -, -, hdis, -⟩ := setProof_ok s s' ms proof va hv
          show s'.disabledValidators k = true
          rw [hdis]; exact h
  | invalidateOp ms proof =>
      simp only [applyOp]
      cases hv : invalidateProof s ms proof with
      | error e => exact h
      | ok s' =>
          obtain ⟨-, -, hdis, -⟩ := invalidateProof_ok s s' ms proof hv
          have hk : s'.disabledValidators k =
              if k = proofSlot proof then true else s.disabledValidators k :=
            congrFun hdis k
          show s'.disabledValidators k = true
          rw [hk]
          split <;> simp [h]
  | incrementEpochOp ms =>
      simp only [applyOp]
      cases hv : incrementLatestEpoch s ms with
      | error e => exact h
      | ok s' =>
          obtain ⟨-, -, hs'⟩ := incrementLatestEpoch_ok s s' ms hv
          show s'.disabledValidators k = true
          rw [hs']; exact h
  | setCrsOp ms crs =>
      simp only [applyOp]
      cases hv : setCommonReferenceString s ms crs with
      | error e => exact h
      | ok s' =>
          obtain ⟨-, hs'⟩ := setCommonReferenceString_ok s s' ms crs hv
          show s'.disabledValidators k = true
          rw [hs']; exact h

theorem validateProofByHash_enabled (s : ACEState) (proof ph sender : Nat)
    (hd : s.disabledValidators proof = false) :
    validateProofByHash s proof ph sender =
      .ok (s.validatedProofs (ph, proof, sender)) := by
  unfold validateProofByHash
  simp [hd]

theorem validateProofByHash_disabled (s : ACEState) (proof ph sender : Nat)
    (hd : s.disabledValidators proof = true) :
    validateProofByHash s proof ph sender = .error .disabledValidator := by
  unfold validateProofByHash
  simp [hd]

/-! ### Concrete states and collaborator behaviours used by the witnesses -/

/-- A freshly constructed contract owned by address 1: the constructor
leaves the registry, the disabled flags and the ledger empty and
initialises `latestEpoch = 1` (ACE.sol line 53). -/
def initialState : ACEState where
  owner := 1
  latestEpoch := 1
  validators := fun _ => 0
  disabledValidators := fun _ => false
  validatedProofs := fun _ => false
  commonReferenceString := fun _ => 0

/-- State in which the BALANCED-category identifier `0x010101`
(epoch 1, category 1, id 1) is bound to validator address 7. -/
def regState : ACEState :=
  { initialState with validators := fun k => if k = 0x010101 then 7 else 0 }

/-- State in which the non-BALANCED identifier `0x010201`
(epoch 1, category 2, id 1) is bound to validator address 9. -/
def mintRegState : ACEState :=
  { initialState with validators := fun k => if k = 0x010201 then 9 else 0 }

/-- Validator behaviour accepting every proof with two sub-outputs. -/
def twoOutputValidator : ValidatorImpl := fun _ _ _ _ => some [[1], [2]]

/-- Validator behaviour accepting every proof with one sub-output. -/
def oneOutputValidator : ValidatorImpl := fun _ _ _ _ => some [[1]]

/-- Concrete stand-in for the keccak256 fingerprint of a byte string,
injective and non-zero on the byte strings the witnesses use. -/
def testHash (bytes : List Nat) : Nat :=
  bytes.foldl (fun a b => a * 256 + b + 1) 1

/-! ### The claims -/

/-- C7: for every identifier whose epoch field exceeds the current
`latestEpoch`, an owner call to `setProof` fails with `EpochExceeded` and
(by revert rollback) stores no binding; and any successful registration
implies its epoch was at most `latestEpoch` at registration time. -/
theorem setProof_epoch_gate (s : ACEState) (proof va : Nat)
    (hepoch : s.latestEpoch < proofEpoch proof) :
    setProof s s.owner proof va = .error .epochExceeded
  ∧ revertOnErrorSt s (setProof s s.owner proof va) = s
  ∧ (∀ (proof₂ ms va₂ : Nat) (s' : ACEState),
        setProof s ms proof₂ va₂ = .ok s' →
        proofEpoch proof₂ ≤ s.latestEpoch) := by
  have h1 : setProof s s.owner proof va = .error .epochExceeded := by
    unfold setProof
    rw [if_pos rfl, if_neg (by omega)]
  refine ⟨h1, by rw [h1]; rfl, ?_⟩
  intro proof₂ ms va₂ s' h
  exact (setProof_ok s s' ms proof₂ va₂ h).2.1

/-- Witness for C7: on a fresh contract (`latestEpoch = 1`), registering
epoch-2 identifier `0x020101` fails `EpochExceeded`, while a successful
registration of `0x010101` confirms its epoch is within bound. -/
theorem setProof_epoch_gate_witness :
    setProof initialState initialState.owner 0x020101 5 =
      .error .epochExceeded
  ∧ proofEpoch 0x010101 ≤ initialState.latestEpoch := by
  have h := setProof_epoch_gate initialState 0x020101 5 (by decide)
  refine ⟨h.1, ?_⟩
  exact h.2.2 0x010101 1 7
    (revertOnErrorSt initialState (setProof initialState 1 0x010101 7)) rfl

/-- C8 (amended): an owner-invoked `incrementLatestEpoch` succeeds and
increases `latestEpoch` by exactly 1 whenever the incremented value still
fits in a `uint8`; a non-owner call fails `Unauthorized`; and at the
`uint8` upper bound an owner call fails with SafeMath8's overflow guard
rather than succeeding. -/
theorem incrementLatestEpoch_spec (s : ACEState) (ms : Nat) :
    (ms = s.owner → s.latestEpoch + 1 < 0x100 →
        incrementLatestEpoch s ms =
          .ok { s with latestEpoch := s.latestEpoch + 1 })
  ∧ (ms ≠ s.owner → incrementLatestEpoch s ms = .error .unauthorized)
  ∧ (ms = s.owner → 0x100 ≤ s.latestEpoch + 1 →
        incrementLatestEpoch s ms = .error .uint8Overflow) := by
  unfold incrementLatestEpoch safeMath8Add
  refine ⟨?_, ?_, ?_⟩
  · intro h1 h2
    rw [if_pos h1, if_pos h2]
  · intro h1
    rw [if_neg h1]
  · intro h1 h2
    rw [if_pos h1, if_neg (by omega)]

/-- Witness for C8 (amended): on a fresh contract the owner's increment
takes `latestEpoch` from 1 to 2, and a non-owner call fails. -/
theorem incrementLatestEpoch_spec_witness :
    incrementLatestEpoch initialState 1 =
      .ok { initialState with latestEpoch := 2 }
  ∧ incrementLatestEpoch initialState 2 = .error .unauthorized := by
  have h1 := incrementLatestEpoch_spec initialState 1
  have h2 := incrementLatestEpoch_spec initialState 2
  exact ⟨h1.1 rfl (by decide), h2.2.1 (by decide)⟩

/-- C8 counterexample: the claim "an owner-invoked incrementEpoch cannot
fail for any other reason than authorization" is false at
`latestEpoch = 255`, a state reachable by 254 owner increments: the owner
call reverts with the `uint8` overflow guard. -/
theorem incrementLatestEpoch_overflow_cex :
    ({ initialState with latestEpoch := 255 } : ACEState).owner = 1
  ∧ incrementLatestEpoch { initialState with latestEpoch := 255 } 1 =
      .error .uint8Overflow :=
  ⟨rfl, rfl⟩

/-- C9: a successful `validateProof` on a non-BALANCED-category identifier
leaves every ledger record unchanged, whatever the validator's output
blob contains. -/
theorem validateProof_nonBalanced_noWrite (vi : ValidatorImpl)
    (kec : List Nat → Nat) (s s' : ACEState) (proof ms sa : Nat)
    (pd : List Nat) (out : List (List Nat))
    (hcat : proofCategory proof ≠ BALANCED)
    (h : validateProof vi kec s proof ms sa pd = .ok (s', out)) :
    s'.validatedProofs = s.validatedProofs := by
  have hs' := (validateProof_ok vi kec s s' proof ms sa pd out h).2.2.2
  rw [hs', if_neg hcat]

/-- Witness for C9: validating the category-2 identifier `0x010201` with a
validator that returns two sub-outputs writes nothing to the ledger. -/
theorem validateProof_nonBalanced_noWrite_witness :
    proofCategory 0x010201 ≠ BALANCED
  ∧ (revertOnError mintRegState
        (validateProof twoOutputValidator testHash mintRegState
          0x010201 5 5 [])).validatedProofs =
      mintRegState.validatedProofs := by
  refine ⟨by decide, ?_⟩
  exact validateProof_nonBalanced_noWrite twoOutputValidator testHash
    mintRegState _ 0x010201 5 5 [] [[1], [2]] (by decide) rfl

/-- State obtained by registering identifier `0x010101` with the zero
handle on a fresh contract. -/
def zeroHandleState : ACEState :=
  revertOnErrorSt initialState (setProof initialState 1 0x010101 0)

/-- C3 counterexample: with `h1 = 0` the first `setProof` succeeds but
leaves the slot at zero, so the second `setProof` does not fail
`AlreadyRegistered` - it succeeds and stores `h2 = 7 ≠ h1`. -/
theorem setProof_writeOnce_cex :
    setProof initialState 1 0x010101 0 = .ok zeroHandleState
  ∧ setProof zeroHandleState 1 0x010101 7 ≠ .error .alreadyRegistered
  ∧ (revertOnErrorSt zeroHandleState
        (setProof zeroHandleState 1 0x010101 7)).validators
      (proofSlot 0x010101) = 7 := by
  refine ⟨rfl, ?_, rfl⟩
  intro hcontra
  injection hcontra

/-- C3 (amended): for a NON-ZERO handle `h1`, after `setProof(id, h1)`
succeeds, a second owner call `setProof(id, h2)` fails `AlreadyRegistered`
and the bound handle remains `h1`; and in general no operation of the
contract ever changes a non-zero validator binding. -/
theorem setProof_writeOnce (s s1 : ACEState) (proof h1 h2 : Nat)
    (h1nz : h1 ≠ 0)
    (hok : setProof s s.owner proof h1 = .ok s1) :
    s1.validators (proofSlot proof) = h1
  ∧ setProof s1 s1.owner proof h2 = .error .alreadyRegistered
  ∧ (∀ (s₂ : ACEState) (op : ACEOp) (k : Nat), s₂.validators k ≠ 0 →
        (applyOp s₂ op).validators k = s₂.validators k) := by
  obtain ⟨-, hep, -, hval, -, hlat, -, -, -⟩ :=
    setProof_ok s s1 s.owner proof h1 hok
  have hv1 : s1.validators (proofSlot proof) = h1 := by
    rw [congrFun hval (proofSlot proof), if_pos rfl]
  refine ⟨hv1, ?_, fun s₂ op k hk => applyOp_validators_nonzero s₂ op k hk⟩
  unfold setProof
  rw [if_pos rfl, if_pos (by rw [hlat]; exact hep),
    if_neg (by rw [hv1]; exact h1nz)]

/-- State obtained by registering identifier `0x010101` with handle 7 on a
fresh contract (identical contents to `regState`). -/
def h1State : ACEState :=
  revertOnErrorSt initialState (setProof initialState 1 0x010101 7)

/-- Witness for C3 (amended): registering `0x010101` with handle 7 and
then attempting handle 9 fails `AlreadyRegistered`, the binding staying 7. -/
theorem setProof_writeOnce_witness :
    h1State.validators (proofSlot 0x010101) = 7
  ∧ setProof h1State h1State.owner 0x010101 9 = .error .alreadyRegistered := by
  have h := setProof_writeOnce initialState h1State 0x010101 7 9
    (by decide) rfl
  exact ⟨h.1, h.2.1⟩

/-- C10: `setProof` never checks the handle against zero: under an epoch
within bound and an unregistered slot, an owner call with the zero handle
succeeds, yet afterwards `getValidatorAddress` (and hence `validateProof`)
still fails `UnknownValidator`, and a later owner `setProof` with a
non-zero handle for the same identifier succeeds and stores it - the
write-once guarantee effectively holds only for non-zero registrations. -/
theorem setProof_zeroHandle (s : ACEState) (proof h2 : Nat)
    (hp : proof < 0x1000000)
    (hepoch : proofEpoch proof ≤ s.latestEpoch)
    (hunb : s.validators proof = 0)
    (_hnz : h2 ≠ 0) :
    ∃ s1 s2, setProof s s.owner proof 0 = .ok s1
      ∧ s1.validators proof = 0
      ∧ getValidatorAddress s1 proof = .error .unknownValidator
      ∧ (∀ (vi : ValidatorImpl) (kec : List Nat → Nat) (ms sa : Nat)
            (pd : List Nat),
            validateProof vi kec s1 proof ms sa pd =
              .error .unknownValidator)
      ∧ setProof s1 s1.owner proof h2 = .ok s2
      ∧ s2.validators proof = h2 := by
  have hslot := proofSlot_eq proof hp
  have hv0 : s.validators (proofSlot proof) = 0 := by rw [hslot]; exact hunb
  have hvs1 : (if proof = proofSlot proof then 0 else s.validators proof) = 0 := by
    rw [hslot]; simp
  have h1 : setProof s s.owner proof 0 = .ok { s with validators := fun k => if k = proofSlot proof then 0 else s.validators k } := by
    unfold setProof
    rw [if_pos rfl, if_pos hepoch, if_pos hv0]
  have h2ok : setProof { s with validators := fun k => if k = proofSlot proof then 0 else s.validators k } s.owner proof h2 = .ok { s with validators := fun k => if k = proofSlot proof then h2 else if k = proofSlot proof then 0 else s.validators k } := by
    unfold setProof
    rw [if_pos rfl, if_pos hepoch, if_pos (by simp)]
    try rfl
  refine ⟨_, _, h1, ?_, ?_, ?_, h2ok, ?_⟩
  · exact hvs1
  · exact getValidatorAddress_unknown _ proof hvs1
  · intro vi kec ms sa pd
    exact validateProof_unknown vi kec _ proof ms sa pd hvs1
  · show (if proof = proofSlot proof then h2 else if proof = proofSlot proof then 0 else s.validators proof) = h2
    rw [hslot]
    simp

/-- Witness for C10: on a fresh contract, register `0x010101` with the
zero handle, observe `UnknownValidator` on resolution and validation, then
successfully re-register with handle 7. -/
theorem setProof_zeroHandle_witness :
    ∃ s1 s2, setProof initialState initialState.owner 0x010101 0 = .ok s1
      ∧ s1.validators 0x010101 = 0
      ∧ getValidatorAddress s1 0x010101 = .error .unknownValidator
      ∧ (∀ (vi : ValidatorImpl) (kec : List Nat → Nat) (ms sa : Nat)
            (pd : List Nat),
            validateProof vi kec s1 0x010101 ms sa pd =
              .error .unknownValidator)
      ∧ setProof s1 s1.owner 0x010101 7 = .ok s2
      ∧ s2.validators 0x010101 = 7 :=
  setProof_zeroHandle initialState 0x010101 7 (by decide) (by decide)
    (by decide) (by decide)

/-- State obtained from `regState` by the owner invalidating `0x010101`. -/
def invState : ACEState :=
  revertOnErrorSt regState (invalidateProof regState 1 0x010101)

/-- C2: after a successful `invalidateProof(id)` the validator binding
itself is untouched but the disabled flag for `id` is set; in any state
where the flag is set and the binding exists, both `validateProof` and
`validateProofByHash` for `id` fail `DisabledValidator` regardless of what
the ledger contains; and no operation of the contract ever resets the
disabled flag to false (nor erases a binding), so revocation is
irreversible. -/
theorem invalidateProof_irreversible (s s' : ACEState) (ms proof : Nat)
    (hp : proof < 0x1000000)
    (h : invalidateProof s ms proof = .ok s') :
    s'.validators = s.validators
  ∧ s'.disabledValidators proof = true
  ∧ s'.validators proof ≠ 0
  ∧ (∀ s₂ : ACEState, s₂.disabledValidators proof = true →
        s₂.validators proof ≠ 0 →
        (∀ (vi : ValidatorImpl) (kec : List Nat → Nat) (ms₂ sa : Nat)
            (pd : List Nat),
            validateProof vi kec s₂ proof ms₂ sa pd =
              .error .disabledValidator)
      ∧ (∀ ph sender : Nat,
            validateProofByHash s₂ proof ph sender =
              .error .disabledValidator))
  ∧ (∀ (s₂ : ACEState) (op : ACEOp), s₂.disabledValidators proof = true →
        (applyOp s₂ op).disabledValidators proof = true)
  ∧ (∀ (s₂ : ACEState) (op : ACEOp), s₂.validators proof ≠ 0 →
        (applyOp s₂ op).validators proof = s₂.validators proof) := by
  obtain ⟨-, hnz, hdis, hval, -⟩ := invalidateProof_ok s s' ms proof h
  have hslot := proofSlot_eq proof hp
  rw [hslot] at hnz
  refine ⟨hval, ?_, ?_, ?_,
    fun s₂ op hd => applyOp_disabled_true s₂ op proof hd,
    fun s₂ op hv => applyOp_validators_nonzero s₂ op proof hv⟩
  · rw [congrFun hdis proof, hslot, if_pos rfl]
  · rw [congrFun hval proof]
    exact hnz
  · intro s₂ hd hv
    exact ⟨fun vi kec ms₂ sa pd =>
        validateProof_disabled vi kec s₂ proof ms₂ sa pd hv hd,
      fun ph sender => validateProofByHash_disabled s₂ proof ph sender hd⟩

/-- Witness for C2: invalidating the registered `0x010101` on `regState`
keeps the binding, sets the flag, makes both dispatch and hash-check fail
`DisabledValidator`, and the flag survives a further operation. -/
theorem invalidateProof_irreversible_witness :
    invState.validators = regState.validators
  ∧ invState.disabledValidators 0x010101 = true
  ∧ validateProof twoOutputValidator testHash invState 0x010101 5 5 [] =
      .error .disabledValidator
  ∧ validateProofByHash invState 0x010101 77 5 = .error .disabledValidator
  ∧ (applyOp invState (ACEOp.incrementEpochOp 1)).disabledValidators
      0x010101 = true := by
  have h := invalidateProof_irreversible regState invState 1 0x010101
    (by decide) rfl
  obtain ⟨hval, hdis, -, hmain, hpres, -⟩ := h
  obtain ⟨hv, hb⟩ := hmain invState hdis (by decide)
  exact ⟨hval, hdis, hv twoOutputValidator testHash 5 5 [], hb 77 5,
    hpres invState (ACEOp.incrementEpochOp 1) hdis⟩

/-- C5 (amended): on a successful BALANCED validation every sub-output of
the returned blob is hashed to a fingerprint and recorded in the ledger
keyed by `(fingerprint, proof, msg.sender)` - the CALLER identity, not the
`_sender` argument, which is only forwarded to the validator - and no key
outside that set is newly recorded. -/
theorem validateProof_ledger_keys (vi : ValidatorImpl)
    (kec : List Nat → Nat) (s s' : ACEState) (proof ms sa : Nat)
    (pd : List Nat) (out : List (List Nat))
    (hbal : proofCategory proof = BALANCED)
    (h : validateProof vi kec s proof ms sa pd = .ok (s', out)) :
    (∀ o ∈ out, s'.validatedProofs (kec o, proof, ms) = true)
  ∧ (∀ k : Nat × Nat × Nat, s'.validatedProofs k = true →
        s.validatedProofs k = true ∨ ∃ o ∈ out, k = (kec o, proof, ms)) := by
  have hs' := (validateProof_ok vi kec s s' proof ms sa pd out h).2.2.2
  rw [if_pos hbal] at hs'
  constructor
  · intro o ho
    rw [hs']
    show writeFingerprints s.validatedProofs kec proof ms out
      (kec o, proof, ms) = true
    rw [writeFingerprints_true_iff]
    exact Or.inl ⟨o, ho, rfl⟩
  · intro k hk
    rw [hs'] at hk
    have := (writeFingerprints_true_iff kec proof ms out
      s.validatedProofs k).mp hk
    tauto

/-- State produced by validating `0x010101` on `regState` with
`msg.sender = 5` and `_sender` argument `7`. -/
def splitSenderState : ACEState :=
  revertOnError regState
    (validateProof oneOutputValidator testHash regState 0x010101 5 7 [])

/-- C5 counterexample: `validateProof` called with `msg.sender = 5` and
senderIdentity argument `7` records the fingerprint under the caller key 5;
the record keyed by the senderIdentity argument 7, which the claim says is
written, is absent. -/
theorem validateProof_senderKey_cex :
    validateProof oneOutputValidator testHash regState 0x010101 5 7 [] =
      .ok (splitSenderState, [[1]])
  ∧ testHash [1] = 258
  ∧ splitSenderState.validatedProofs (258, 0x010101, 7) = false
  ∧ splitSenderState.validatedProofs (258, 0x010101, 5) = true
  ∧ (5 : Nat) ≠ 7 :=
  ⟨rfl, rfl, rfl, rfl, by decide⟩

/-- Witness for C5 (amended): the fingerprint of the single sub-output is
recorded under the caller identity 5, and every true record is either old
or one of the fingerprint keys. -/
theorem validateProof_ledger_keys_witness :
    splitSenderState.validatedProofs (testHash [1], 0x010101, 5) = true
  ∧ (regState.validatedProofs (258, 0x010101, 5) = true
      ∨ ∃ o ∈ [[1]], ((258 : Nat), (0x010101 : Nat), (5 : Nat)) =
          (testHash o, 0x010101, 5)) := by
  have h := validateProof_ledger_keys oneOutputValidator testHash regState
    splitSenderState 0x010101 5 7 [] [[1]] (by decide) rfl
  exact ⟨h.1 [1] (by simp), h.2 (258, 0x010101, 5) (by decide)⟩

/-- Ledger state holding the single record `(3, 0x010101, 5)`. -/
def oneRecordState : ACEState :=
  { initialState with validatedProofs :=
      fun k => if k = (3, 0x010101, 5) then true else false }

/-- C6 counterexample: with the record `(3, 0x010101, 5)` present, every
fingerprint listed in `[3, 3]` is non-zero and currently recorded, yet the
call fails (`NotPreviouslyValidated` on the duplicate), refuting the
claimed "if and only if" for lists with repeated fingerprints. -/
theorem clearProofByHashes_dup_cex :
    clearProofByHashes oneRecordState 5 0x010101 [3, 3] =
      .error .notPreviouslyValidated
  ∧ (∀ fp ∈ [(3 : Nat), 3], fp ≠ 0
      ∧ oneRecordState.validatedProofs (fp, 0x010101, 5) = true) :=
  ⟨rfl, by decide⟩

/-- C6 (amended): for a duplicate-free fingerprint list, `clear` succeeds
iff every listed fingerprint is non-zero and its record keyed by
`(fingerprint, proof, caller)` is true in the pre-state; on any failure the
whole call reverts with no record cleared; on success exactly the listed
records are set to false; and clearing is not idempotent - a second
successive clear of the same fingerprint fails `NotPreviouslyValidated`. -/
theorem clearProofByHashes_spec (s : ACEState) (z proof : Nat)
    (phs : List Nat) (hnd : phs.Nodup) :
    ((∃ s', clearProofByHashes s z proof phs = .ok s') ↔
        ∀ fp ∈ phs, fp ≠ 0 ∧ s.validatedProofs (fp, proof, z) = true)
  ∧ (∀ e, clearProofByHashes s z proof phs = .error e →
        revertOnErrorSt s (clearProofByHashes s z proof phs) = s)
  ∧ (∀ s', clearProofByHashes s z proof phs = .ok s' →
        (∀ fp ∈ phs, s'.validatedProofs (fp, proof, z) = false)
      ∧ (∀ k : Nat × Nat × Nat,
            ¬(k.1 ∈ phs ∧ k.2.1 = proof ∧ k.2.2 = z) →
            s'.validatedProofs k = s.validatedProofs k))
  ∧ (∀ (fp : Nat) (s' : ACEState),
        clearProofByHashes s z proof [fp] = .ok s' →
        clearProofByHashes s' z proof [fp] =
          .error .notPreviouslyValidated) := by
  refine ⟨⟨?_, ?_⟩, fun e he => by rw [he]; rfl, ?_, ?_⟩
  · rintro ⟨s', hs'⟩
    exact (clearLoop_ok_spec proof z phs s s' hnd hs').1
  · intro hcond
    exact clearLoop_ok_of proof z phs s hnd hcond
  · intro s' hs'
    obtain ⟨-, hchar⟩ := clearLoop_ok_spec proof z phs s s' hnd hs'
    constructor
    · intro fp hfp
      rw [hchar (fp, proof, z)]
      simp [hfp]
    · intro k hk
      rw [hchar k, if_neg hk]
  · intro fp s' hs'
    have hone : ([fp] : List Nat).Nodup := by simp
    obtain ⟨hcond, hchar⟩ := clearLoop_ok_spec proof z [fp] s s' hone hs'
    obtain ⟨hfnz, -⟩ := hcond fp (by simp)
    have hfalse : s'.validatedProofs (fp, proof, z) = false := by
      rw [hchar (fp, proof, z)]
      simp
    unfold clearProofByHashes clearLoop
    rw [if_neg hfnz, if_neg (by rw [hfalse]; simp)]

/-- Witness for C6 (amended): on the one-record ledger, clearing `[3]`
succeeds while clearing `[0]` reverts atomically. -/
theorem clearProofByHashes_spec_witness :
    (∃ s', clearProofByHashes oneRecordState 5 0x010101 [3] = .ok s')
  ∧ revertOnErrorSt oneRecordState
      (clearProofByHashes oneRecordState 5 0x010101 [0]) = oneRecordState := by
  have h3 := clearProofByHashes_spec oneRecordState 5 0x010101 [3] (by simp)
  have h0 := clearProofByHashes_spec oneRecordState 5 0x010101 [0] (by simp)
  exact ⟨h3.1.mpr (by decide), h0.2.1 .emptyProofHash rfl⟩

/-- C4: round-trip through dispatch, consultation and clearing. For a
BALANCED identifier bound to an enabled validator that returns two
sub-outputs with distinct non-zero fingerprints, `validateProof` (called by
`z`) succeeds, both fingerprints check out via `validateProofByHash` for
`z`, and after `z` clears the first fingerprint the first check returns
`false` while the second still returns `true`. -/
theorem validate_byHash_clear_roundTrip (vi : ValidatorImpl)
    (kec : List Nat → Nat) (s : ACEState) (proof z sa : Nat)
    (pd o1 o2 : List Nat)
    (hbal : proofCategory proof = BALANCED)
    (hreg : s.validators proof ≠ 0)
    (hdis : s.disabledValidators proof = false)
    (hvi : vi (s.validators proof) pd sa s.commonReferenceString =
      some [o1, o2])
    (hne : kec o1 ≠ kec o2)
    (h1nz : kec o1 ≠ 0) :
    ∃ s' s'', validateProof vi kec s proof z sa pd = .ok (s', [o1, o2])
      ∧ validateProofByHash s' proof (kec o1) z = .ok true
      ∧ validateProofByHash s' proof (kec o2) z = .ok true
      ∧ clearProofByHashes s' z proof [kec o1] = .ok s''
      ∧ validateProofByHash s'' proof (kec o1) z = .ok false
      ∧ validateProofByHash s'' proof (kec o2) z = .ok true := by
  have hga : getValidatorAddress s proof = .ok (s.validators proof) :=
    (getValidatorAddress_ok_iff s proof (s.validators proof)).mpr
      ⟨rfl, hreg, hdis⟩
  have hrec1 : writeFingerprints s.validatedProofs kec proof z [o1, o2]
      (kec o1, proof, z) = true :=
    (writeFingerprints_true_iff kec proof z [o1, o2] s.validatedProofs
      (kec o1, proof, z)).mpr (Or.inl ⟨o1, by simp, rfl⟩)
  have hrec2 : writeFingerprints s.validatedProofs kec proof z [o1, o2]
      (kec o2, proof, z) = true :=
    (writeFingerprints_true_iff kec proof z [o1, o2] s.validatedProofs
      (kec o2, proof, z)).mpr (Or.inl ⟨o2, by simp, rfl⟩)
  have hkne : ((kec o2, proof, z) : Nat × Nat × Nat) ≠ (kec o1, proof, z) :=
    fun hcontra => Ne.symm hne (congrArg Prod.fst hcontra)
  have hval : validateProof vi kec s proof z sa pd = .ok ({ s with validatedProofs := writeFingerprints s.validatedProofs kec proof z [o1, o2] }, [o1, o2]) := by
    unfold validateProof
    rw [hga]
    dsimp only
    rw [hvi]
    dsimp only
    rw [if_pos hbal]
  have hdis1 : ({ s with validatedProofs := writeFingerprints s.validatedProofs kec proof z [o1, o2] } : ACEState).disabledValidators proof = false := hdis
  have hdis2 : ({ s with validatedProofs := fun k => if k = (kec o1, proof, z) then false else writeFingerprints s.validatedProofs kec proof z [o1, o2] k } : ACEState).disabledValidators proof = false := hdis
  have hclear : clearProofByHashes { s with validatedProofs := writeFingerprints s.validatedProofs kec proof z [o1, o2] } z proof [kec o1] = .ok { s with validatedProofs := fun k => if k = (kec o1, proof, z) then false else writeFingerprints s.validatedProofs kec proof z [o1, o2] k } := by
    unfold clearProofByHashes clearLoop
    rw [if_neg h1nz, if_pos hrec1]
    try rfl
  refine ⟨_, _, hval, ?_, ?_, hclear, ?_, ?_⟩
  · rw [validateProofByHash_enabled _ proof (kec o1) z hdis1]
    exact congrArg Except.ok hrec1
  · rw [validateProofByHash_enabled _ proof (kec o2) z hdis1]
    exact congrArg Except.ok hrec2
  · rw [validateProofByHash_enabled _ proof (kec o1) z hdis2]
    exact congrArg Except.ok (if_pos rfl)
  · rw [validateProofByHash_enabled _ proof (kec o2) z hdis2]
    refine congrArg Except.ok ?_
    show (if ((kec o2, proof, z) : Nat × Nat × Nat) = (kec o1, proof, z)
        then false
        else writeFingerprints s.validatedProofs kec proof z [o1, o2]
          (kec o2, proof, z)) = true
    rw [if_neg hkne]
    exact hrec2

/-- Witness for C4 on `regState` with the two-sub-output validator:
fingerprints 258 and 259 round-trip as claimed. -/
theorem validate_byHash_clear_roundTrip_witness :
    ∃ s' s'', validateProof twoOutputValidator testHash regState
        0x010101 5 5 [] = .ok (s', [[1], [2]])
      ∧ validateProofByHash s' 0x010101 (testHash [1]) 5 = .ok true
      ∧ validateProofByHash s' 0x010101 (testHash [2]) 5 = .ok true
      ∧ clearProofByHashes s' 5 0x010101 [testHash [1]] = .ok s''
      ∧ validateProofByHash s'' 0x010101 (testHash [1]) 5 = .ok false
      ∧ validateProofByHash s'' 0x010101 (testHash [2]) 5 = .ok true :=
  validate_byHash_clear_roundTrip twoOutputValidator testHash regState
    0x010101 5 5 [] [1] [2] (by decide) (by decide) (by decide) rfl
    (by decide) (by decide)

/-- State produced by a successful BALANCED validation on `regState`. -/
def balState : ACEState :=
  revertOnError regState
    (validateProof twoOutputValidator testHash regState 0x010101 5 5 [])

/-- C1: atomicity and ordering of `validateProof` and
`clearProofByHashes`. Every erroneous run (UnknownValidator,
DisabledValidator, a validator rejection, or any failed fingerprint in
clear) reverts to exactly the pre-state; and a successful `validateProof`
leaves every non-ledger component untouched, its output is the validator's
response to the PRE-state registry resolution and PRE-state reference
string (so no mutation is observable before the validator call returns
non-rejected), and the ledger's true records afterwards are exactly the
old ones plus - only in the BALANCED case - the fingerprint keys of the
returned sub-outputs. -/
theorem validate_clear_atomic (vi : ValidatorImpl) (kec : List Nat → Nat)
    (s : ACEState) (proof ms sa : Nat) (pd : List Nat) (phs : List Nat) :
    (∀ e, validateProof vi kec s proof ms sa pd = .error e →
        revertOnError s (validateProof vi kec s proof ms sa pd) = s)
  ∧ (∀ e, clearProofByHashes s ms proof phs = .error e →
        revertOnErrorSt s (clearProofByHashes s ms proof phs) = s)
  ∧ (∀ (s' : ACEState) (out : List (List Nat)),
        validateProof vi kec s proof ms sa pd = .ok (s', out) →
        vi (s.validators proof) pd sa s.commonReferenceString = some out
      ∧ s.validators proof ≠ 0
      ∧ s.disabledValidators proof = false
      ∧ s'.owner = s.owner
      ∧ s'.latestEpoch = s.latestEpoch
      ∧ s'.validators = s.validators
      ∧ s'.disabledValidators = s.disabledValidators
      ∧ s'.commonReferenceString = s.commonReferenceString
      ∧ (∀ k : Nat × Nat × Nat, s'.validatedProofs k = true ↔
            (proofCategory proof = BALANCED
              ∧ ∃ o ∈ out, k = (kec o, proof, ms))
          ∨ s.validatedProofs k = true)) := by
  refine ⟨fun e he => by rw [he]; rfl, fun e he => by rw [he]; rfl,
    fun s' out h => ?_⟩
  obtain ⟨hnz, hdis, hvi, hs'⟩ :=
    validateProof_ok vi kec s s' proof ms sa pd out h
  obtain ⟨ho, hl, hv, hd, hc⟩ :=
    validateProof_ok_frame vi kec s s' proof ms sa pd out h
  refine ⟨hvi, hnz, hdis, ho, hl, hv, hd, hc, ?_⟩
  intro k
  rw [hs']
  by_cases hb : proofCategory proof = BALANCED
  · rw [if_pos hb]
    show writeFingerprints s.validatedProofs kec proof ms out k = true ↔ _
    rw [writeFingerprints_true_iff]
    simp [hb]
  · rw [if_neg hb]
    simp [hb]

/-- Witness for C1: an unknown-validator dispatch and a zero-fingerprint
clear both roll back exactly, while the successful dispatch on `regState`
keeps the registry intact and consulted the pre-state validator binding. -/
theorem validate_clear_atomic_witness :
    revertOnError initialState (validateProof twoOutputValidator testHash
      initialState 0x010101 5 5 []) = initialState
  ∧ revertOnErrorSt regState
      (clearProofByHashes regState 5 0x010101 [0]) = regState
  ∧ balState.validators = regState.validators
  ∧ twoOutputValidator (regState.validators 0x010101) [] 5
      regState.commonReferenceString = some [[1], [2]] := by
  have h1 := validate_clear_atomic twoOutputValidator testHash initialState
    0x010101 5 5 [] [0]
  have h2 := validate_clear_atomic twoOutputValidator testHash regState
    0x010101 5 5 [] [0]
  obtain ⟨hvi', -, -, -, -, hval, -, -, -⟩ := h2.2.2 balState [[1], [2]] rfl
  exact ⟨h1.1 .unknownValidator rfl, h2.2.1 .emptyProofHash rfl, hval, hvi'⟩

end ACE
